import Mathlib

/-
Verification of the PocketRelay plugin installer against its specification.

The development shallowly embeds the domain logic of the installer:
  * src/bink.rs   - patching the game via the binkw32.dll shim
  * src/github.rs - the release / asset data model
  * src/plugin.rs - release selection and plugin install / removal
  * src/iced.rs   - the UI reducer functions for patch / plugin messages

The filesystem is modelled as a map from paths to optional byte contents;
the async file operations of tokio are modelled as pure state transformers
(writes always succeed, removal of an absent file errs, matching the only
failure modes the claims mention).  The SHA-256 digest function and the two
embedded DLL resources live outside the sources, so they appear as abstract
data constrained by the facts the sources state about them.
-/

namespace PocketRelayInstaller

/-- A filesystem path, modelled as its list of components. -/
abbrev GamePath := List String

/-- Joining one extra component onto a path, as Rust Path::join with a file name. -/
def GamePath.join (p : GamePath) (s : String) : GamePath := p ++ [s]

/-- File contents: a sequence of byte values. -/
abbrev Bytes := List Nat

/-- The filesystem state: maps each path to the contents of the file stored
there, none when no file exists at that path. -/
abbrev FS := GamePath → Option Bytes

/-- Overwriting file write, as tokio fs write: creates or replaces the file. -/
def FS.write (fs : FS) (p : GamePath) (b : Bytes) : FS :=
  fun q => if q = p then some b else fs q

/-- File existence check, as Rust Path::exists. -/
def FS.pathExists (fs : FS) (p : GamePath) : Bool := (fs p).isSome

/-- File deletion, as tokio fs remove_file: errs when no file is at the path. -/
def FS.removeFile (fs : FS) (p : GamePath) : Except String FS :=
  match fs p with
  | some _ => Except.ok (fun q => if q = p then none else fs q)
  | none => Except.error "No such file or directory"

/-- Hash of the official binkw32.dll file, used to check if the game has
already been patched (SHA256).  Constant OFFICIAL_BINKW32_HASH of bink.rs. -/
def OFFICIAL_BINKW32_HASH : String :=
  "a4ddcf8d78eac388cbc85155ef37a251a77f50de79d0b975ab9bb65bd0375698"

/-- Modelled from the spec: the two embedded DLL resources of bink.rs
(BINK_PATCHED from src/resources/binkw32.dll and BINK_UNPATCHED from
src/resources/binkw23.dll, binary files absent from the sources) together
with the SHA-256 hex digest function of the external sha256 crate.  The
sources state that the unpatched resource is the official binkw32.dll, whose
digest is the fixed reference hash, and that the patched resource is a
modified DLL, whose digest differs from it. -/
structure BinkEmbedded where
  hash : Bytes → String
  BINK_PATCHED : Bytes
  BINK_UNPATCHED : Bytes
  hash_unpatched : hash BINK_UNPATCHED = OFFICIAL_BINKW32_HASH
  hash_patched : hash BINK_PATCHED ≠ OFFICIAL_BINKW32_HASH

/-- try_async_digest of the sha256 crate, applied to a file path: reads the
file and returns the hex digest of its contents, erring when the file cannot
be read (the failure mode modelled is an absent file). -/
def try_async_digest (hash : Bytes → String) (fs : FS) (p : GamePath) :
    Except String String :=
  match fs p with
  | some content => Except.ok (hash content)
  | none => Except.error "failed to get binkw32.dll hash"

/-- is_patched of bink.rs: hashes binkw32.dll under the game path and reports
patched exactly when the digest differs from the official hash. -/
def is_patched (hash : Bytes → String) (fs : FS) (game_path : GamePath) :
    Except String Bool :=
  let binkw32_path := game_path.join "binkw32.dll"
  match try_async_digest hash fs binkw32_path with
  | Except.error e => Except.error e
  | Except.ok digest => Except.ok (digest != OFFICIAL_BINKW32_HASH)

/-- apply_patch of bink.rs: overwrites binkw32.dll with the embedded patched
bytes and writes the embedded unpatched bytes to binkw23.dll.  Writes are
modelled as always succeeding; the result is the filesystem after both. -/
def apply_patch (e : BinkEmbedded) (fs : FS) (game_path : GamePath) : FS :=
  let binkw32_path := game_path.join "binkw32.dll"
  let binkw23_path := game_path.join "binkw23.dll"
  (fs.write binkw32_path e.BINK_PATCHED).write binkw23_path e.BINK_UNPATCHED

/-- remove_patch of bink.rs: writes the embedded unpatched bytes back to
binkw32.dll, then removes binkw23.dll only when it exists. -/
def remove_patch (e : BinkEmbedded) (fs : FS) (game_path : GamePath) :
    Except String FS :=
  let binkw32_path := game_path.join "binkw32.dll"
  let binkw23_path := game_path.join "binkw23.dll"
  let fs1 := fs.write binkw32_path e.BINK_UNPATCHED
  if fs1.pathExists binkw23_path then fs1.removeFile binkw23_path
  else Except.ok fs1

/-- GitHubReleaseAsset of github.rs: a named downloadable file of a release. -/
structure GitHubReleaseAsset where
  name : String
  browser_download_url : String
deriving DecidableEq

/-- GitHubRelease of github.rs: the required portions of a github release. -/
structure GitHubRelease where
  html_url : String
  tag_name : String
  name : String
  published_at : String
  prerelease : Bool
  assets : List GitHubReleaseAsset
deriving DecidableEq

/-- Lexicographic comparison of character lists: the order Rust String cmp
uses (byte-wise comparison agrees with scalar-value order on the data). -/
def charsLe : List Char → List Char → Bool
  | [], _ => true
  | _ :: _, [] => false
  | a :: as, b :: bs => if a < b then true else if b < a then false else charsLe as bs

/-- String comparison in the Rust Ord order, on the underlying characters. -/
def strLe (a b : String) : Bool := charsLe a.data b.data

/-- GitHub asset name for the plugin file, constant ASSET_NAME of plugin.rs. -/
def ASSET_NAME : String := "pocket-relay-plugin.asi"

/-- Name of the plugin directory, constant PLUGIN_DIR of plugin.rs. -/
def PLUGIN_DIR : String := "ASI"

/-- Name of the plugin file, constant PLUGIN_NAME of plugin.rs. -/
def PLUGIN_NAME : String := "pocket-relay-plugin.asi"

/-- Pure core of get_latest_beta_plugin_release of plugin.rs, applied to an
already fetched release list: retain only the prereleases, sort on
published_at descending (a stable sort, as Rust Vec sort_by with the
published_at comparison reversed), and take the first element. -/
def latest_beta_release (releases : List GitHubRelease) : Option GitHubRelease :=
  let kept := releases.filter (fun value => value.prerelease)
  let sorted := kept.mergeSort (fun a b => strLe b.published_at a.published_at)
  sorted.head?

/-- get_latest_beta_plugin_release of plugin.rs as a function of the outcome
of the network fetch of the release list: a fetch failure is propagated as an
error, and a successful fetch never errs, yielding the latest prerelease when
one exists and none otherwise. -/
def get_latest_beta_plugin_release (fetched : Except String (List GitHubRelease)) :
    Except String (Option GitHubRelease) :=
  match fetched with
  | Except.error e =>
      Except.error ("failed finding latest plugin client version: " ++ e)
  | Except.ok releases => Except.ok (latest_beta_release releases)

/-- The asset selection step of apply_plugin of plugin.rs: the first asset of
the release whose name equals ASSET_NAME. -/
def find_plugin_asset (release : GitHubRelease) : Option GitHubReleaseAsset :=
  release.assets.find? (fun asset => asset.name == ASSET_NAME)

/-- apply_plugin of plugin.rs, with the network download modelled as a
function from the asset to either its downloaded bytes or an error: find the
asset named ASSET_NAME (failing when absent, before anything is written),
download it, and write the bytes to ASI/pocket-relay-plugin.asi under the
game path. -/
def apply_plugin (download : GitHubReleaseAsset → Except String Bytes)
    (fs : FS) (game_path : GamePath) (release : GitHubRelease) :
    Except String FS :=
  let asi_path := game_path.join PLUGIN_DIR
  let plugin_path := asi_path.join PLUGIN_NAME
  match find_plugin_asset release with
  | none => Except.error "missing plugin asset file"
  | some asset =>
    match download asset with
    | Except.error e => Except.error ("failed to download client plugin: " ++ e)
    | Except.ok bytes => Except.ok (fs.write plugin_path bytes)

/-- remove_plugin of plugin.rs: delete ASI/pocket-relay-plugin.asi under the
game path, erring exactly when the deletion fails, in particular when the
file is absent. -/
def remove_plugin (fs : FS) (game_path : GamePath) : Except String FS :=
  let asi_path := game_path.join PLUGIN_DIR
  let plugin_path := asi_path.join PLUGIN_NAME
  fs.removeFile plugin_path

/-- ReleaseType of iced.rs: the release channel choice carrying the release. -/
inductive ReleaseType
  | Stable (release : GitHubRelease)
  | Beta (release : GitHubRelease)

/-- PluginDetails of iced.rs: the combo box options for the release type and
the currently selected release type. -/
structure PluginDetails where
  release_type_state : List ReleaseType
  selected : ReleaseType

/-- PluginDetailsState of iced.rs: remote state of the plugin details. -/
inductive PluginDetailsState
  | Loading
  | Error (message : String)
  | Ready (details : PluginDetails)

/-- AlterPatchState of iced.rs: status of adding / removing the patch. -/
inductive AlterPatchState
  | Initial
  | Loading
  | Success
  | Error (message : String)

/-- AlterPluginState of iced.rs: status of adding / removing the plugin. -/
inductive AlterPluginState
  | Initial
  | Loading
  | Success
  | Error (message : String)

/-- AppStateInitial of iced.rs: no game picked yet. -/
structure AppStateInitial where
  pick_file_error : Option String

/-- AppStateActive of iced.rs: a game has been selected. -/
structure AppStateActive where
  patched : Bool
  plugin : Bool
  path : GamePath
  alter_plugin_state : AlterPluginState
  alter_patch_state : AlterPatchState

/-- AppState of iced.rs. -/
inductive AppState
  | Initial (s : AppStateInitial)
  | Active (s : AppStateActive)

/-- App of iced.rs: the whole application state. -/
structure App where
  state : AppState
  plugin_details_state : PluginDetailsState

/-- PatchMessage of iced.rs; operation results carry unit or an error string. -/
inductive PatchMessage
  | Add
  | Remove
  | Added (result : Except String Unit)
  | Removed (result : Except String Unit)

/-- PluginMessage of iced.rs. -/
inductive PluginMessage
  | Add
  | Remove
  | SelectType (t : ReleaseType)
  | Added (result : Except String Unit)
  | Removed (result : Except String Unit)

/-- The iced Task returned by App::update_patch, abstracted to the async
operation it dispatches. -/
inductive PatchCommand
  | noTask
  | performApplyPatch (path : GamePath)
  | performRemovePatch (path : GamePath)

/-- The iced Task returned by App::update_plugin, abstracted to the async
operation it dispatches. -/
inductive PluginCommand
  | noTask
  | performApplyPlugin (path : GamePath) (release : GitHubRelease)
  | performRemovePlugin (path : GamePath)

/-- App::update_patch of iced.rs; none models the panic taken whenever the
app state is not Active, before the message is even inspected. -/
def App.update_patch (app : App) (msg : PatchMessage) :
    Option (App × PatchCommand) :=
  match app.state with
  | AppState.Initial _ => none
  | AppState.Active state =>
    match msg with
    | PatchMessage.Add =>
        some ({ app with state := AppState.Active (
                  { state with alter_patch_state := AlterPatchState.Loading } ) },
              PatchCommand.performApplyPatch state.path)
    | PatchMessage.Remove =>
        some ({ app with state := AppState.Active (
                  { state with alter_patch_state := AlterPatchState.Loading } ) },
              PatchCommand.performRemovePatch state.path)
    | PatchMessage.Added (Except.error err) =>
        some ({ app with state := AppState.Active (
                  { state with alter_patch_state := AlterPatchState.Error err } ) },
              PatchCommand.noTask)
    | PatchMessage.Added (Except.ok _) =>
        some ({ app with state := AppState.Active (
                  { state with alter_patch_state := AlterPatchState.Success,
                               patched := true } ) },
              PatchCommand.noTask)
    | PatchMessage.Removed (Except.error err) =>
        some ({ app with state := AppState.Active (
                  { state with alter_patch_state := AlterPatchState.Error err } ) },
              PatchCommand.noTask)
    | PatchMessage.Removed (Except.ok _) =>
        some ({ app with state := AppState.Active (
                  { state with alter_patch_state := AlterPatchState.Success,
                               patched := false } ) },
              PatchCommand.noTask)

/-- App::update_plugin of iced.rs; none models the panic taken whenever the
app state is not Active, and the further panic taken by the Add message when
the plugin details are not Ready. -/
def App.update_plugin (app : App) (msg : PluginMessage) :
    Option (App × PluginCommand) :=
  match app.state with
  | AppState.Initial _ => none
  | AppState.Active state =>
    match msg with
    | PluginMessage.Add =>
      match app.plugin_details_state with
      | PluginDetailsState.Ready details =>
        let release := match details.selected with
          | ReleaseType.Stable value => value
          | ReleaseType.Beta value => value
        some ({ app with state := AppState.Active (
                  { state with alter_plugin_state := AlterPluginState.Loading } ) },
              PluginCommand.performApplyPlugin state.path release)
      | _ => none
    | PluginMessage.Remove =>
        some ({ app with state := AppState.Active (
                  { state with alter_plugin_state := AlterPluginState.Loading } ) },
              PluginCommand.performRemovePlugin state.path)
    | PluginMessage.Added (Except.error err) =>
        some ({ app with state := AppState.Active (
                  { state with alter_plugin_state := AlterPluginState.Error err } ) },
              PluginCommand.noTask)
    | PluginMessage.Added (Except.ok _) =>
        some ({ app with state := AppState.Active (
                  { state with alter_plugin_state := AlterPluginState.Success,
                               plugin := true } ) },
              PluginCommand.noTask)
    | PluginMessage.Removed (Except.error err) =>
        some ({ app with state := AppState.Active (
                  { state with alter_plugin_state := AlterPluginState.Error err } ) },
              PluginCommand.noTask)
    | PluginMessage.Removed (Except.ok _) =>
        some ({ app with state := AppState.Active (
                  { state with alter_plugin_state := AlterPluginState.Success,
                               plugin := false } ) },
              PluginCommand.noTask)
    | PluginMessage.SelectType t =>
      match app.plugin_details_state with
      | PluginDetailsState.Ready details =>
          some ({ app with plugin_details_state :=
                    PluginDetailsState.Ready { details with selected := t } },
                PluginCommand.noTask)
      | _ => some (app, PluginCommand.noTask)

/-- A concrete instance of the embedded resource model, used by witnesses:
the unpatched resource is the single byte 0, whose modelled digest is the
official hash, and the patched resource is the single byte 1, whose modelled
digest differs. -/
def binkEmbeddedW : BinkEmbedded where
  hash := fun b => if b = [0] then OFFICIAL_BINKW32_HASH else "0000"
  BINK_PATCHED := [1]
  BINK_UNPATCHED := [0]
  hash_unpatched := by simp
  hash_patched := by simp [OFFICIAL_BINKW32_HASH]

/-- The stable entry of the scenario release list of the spec. -/
def relStable : GitHubRelease :=
  { html_url := "", tag_name := "v1.0", name := "v1.0",
    published_at := "2023-01-01", prerelease := false, assets := [] }

/-- The beta entry of the scenario release list of the spec. -/
def relBeta : GitHubRelease :=
  { html_url := "", tag_name := "v1.1-beta", name := "v1.1-beta",
    published_at := "2023-02-01", prerelease := true, assets := [] }

/-- A concrete plugin asset carrying the expected asset name, used by
witnesses. -/
def assetW : GitHubReleaseAsset :=
  { name := "pocket-relay-plugin.asi", browser_download_url := "" }

/-- A concrete release holding exactly the plugin asset, used by witnesses. -/
def releaseW : GitHubRelease :=
  { html_url := "", tag_name := "v1.0", name := "v1.0",
    published_at := "2023-01-01", prerelease := false, assets := [assetW] }

/-- Concrete loaded plugin details, used by witnesses. -/
def detailsW : PluginDetails :=
  { release_type_state := [ReleaseType.Stable relStable],
    selected := ReleaseType.Stable relStable }

/-- A concrete active app state, used by witnesses. -/
def activeW : AppStateActive :=
  { patched := false, plugin := false, path := [],
    alter_plugin_state := AlterPluginState.Initial,
    alter_patch_state := AlterPatchState.Initial }

/-- A concrete app still in the initial state, used by witnesses. -/
def appInitialW : App :=
  { state := AppState.Initial { pick_file_error := none },
    plugin_details_state := PluginDetailsState.Loading }

/-- A concrete active app whose plugin details are still loading, used by
witnesses. -/
def appActiveW : App :=
  { state := AppState.Active activeW,
    plugin_details_state := PluginDetailsState.Loading }

/-- A concrete active app whose plugin details are ready, used by witnesses. -/
def appActiveReadyW : App :=
  { state := AppState.Active activeW,
    plugin_details_state := PluginDetailsState.Ready detailsW }

/-- Writing then reading the same path yields the written bytes. -/
theorem FS.write_self (fs : FS) (p : GamePath) (b : Bytes) :
    fs.write p b p = some b := by
  simp [FS.write]

/-- Writing leaves every other path unchanged. -/
theorem FS.write_other (fs : FS) (p q : GamePath) (b : Bytes) (h : q ≠ p) :
    fs.write p b q = fs q := by
  simp [FS.write, h]

/-- A successful removal deletes exactly the named file. -/
theorem FS.removeFile_ok (fs fs2 : FS) (p : GamePath)
    (h : fs.removeFile p = Except.ok fs2) :
    fs2 p = none ∧ ∀ q, q ≠ p → fs2 q = fs q := by
  unfold FS.removeFile at h
  cases hc : fs p with
  | none => rw [hc] at h; cases h
  | some b =>
    rw [hc] at h
    cases h
    refine ⟨by simp, fun q hq => by simp [hq]⟩

/-- Distinct final components give distinct joined paths. -/
theorem GamePath.join_ne (p : GamePath) {a b : String} (h : a ≠ b) :
    p.join a ≠ p.join b := by
  intro hc
  exact h (by simpa using List.append_cancel_left hc)

/-- C1: is_patched hashes binkw32.dll under the game directory and returns
false exactly when the digest equals the fixed reference constant, true
otherwise, and errs, returning no boolean, when the file is absent. -/
theorem C1_is_patched_spec (hash : Bytes → String) (fs : FS) (gp : GamePath) :
    (∀ b, fs (gp.join "binkw32.dll") = some b →
      ((is_patched hash fs gp = Except.ok false ↔
          hash b = OFFICIAL_BINKW32_HASH) ∧
       (is_patched hash fs gp = Except.ok true ↔
          hash b ≠ OFFICIAL_BINKW32_HASH))) ∧
    (fs (gp.join "binkw32.dll") = none →
      ∀ r : Bool, is_patched hash fs gp ≠ Except.ok r) := by
  constructor
  · intro b hb
    simp [is_patched, try_async_digest, hb, bne]
  · intro hb r
    simp [is_patched, try_async_digest, hb]

/-- C1 witness: a concrete filesystem whose binkw32.dll digest equals the
reference constant, on which is_patched returns false. -/
theorem C1_is_patched_witness :
    is_patched (fun _ => OFFICIAL_BINKW32_HASH)
      (fun p => if p = ["binkw32.dll"] then some [0] else none)
      [] = Except.ok false := by
  have h := (C1_is_patched_spec (fun _ => OFFICIAL_BINKW32_HASH)
      (fun p => if p = ["binkw32.dll"] then some [0] else none) []).1 [0] (by rfl)
  exact h.1.mpr rfl

/-- C2: applying the patch then checking is_patched reports true, and
removing the patch then checking reports false, because the embedded patched
bytes hash differently from the reference constant while the embedded
unpatched bytes hash equal to it. -/
theorem C2_patch_check_roundtrip (e : BinkEmbedded) (fs : FS) (gp : GamePath) :
    is_patched e.hash (apply_patch e fs gp) gp = Except.ok true ∧
    ∀ fs2, remove_patch e fs gp = Except.ok fs2 →
      is_patched e.hash fs2 gp = Except.ok false := by
  have hne : gp.join "binkw32.dll" ≠ gp.join "binkw23.dll" :=
    GamePath.join_ne gp (by decide)
  constructor
  · have hlook : apply_patch e fs gp (gp.join "binkw32.dll") =
        some e.BINK_PATCHED := by
      unfold apply_patch
      rw [FS.write_other _ _ _ _ hne, FS.write_self]
    simp [is_patched, try_async_digest, hlook, bne, e.hash_patched]
  · intro fs2 h
    simp only [remove_patch] at h
    have hw32 : fs2 (gp.join "binkw32.dll") = some e.BINK_UNPATCHED := by
      split at h
      · obtain ⟨h1, h2⟩ := FS.removeFile_ok _ _ _ h
        rw [h2 _ hne, FS.write_self]
      · cases h
        exact FS.write_self _ _ _
    simp [is_patched, try_async_digest, hw32, bne, e.hash_unpatched]

/-- C2 witness: the roundtrip at a concrete embedded resource model, an empty
filesystem and the empty game path. -/
theorem C2_patch_check_witness :
    is_patched binkEmbeddedW.hash
      (apply_patch binkEmbeddedW (fun _ => none) []) [] = Except.ok true ∧
    is_patched binkEmbeddedW.hash
      (FS.write (fun _ => none) (GamePath.join [] "binkw32.dll")
        binkEmbeddedW.BINK_UNPATCHED) [] = Except.ok false := by
  refine ⟨(C2_patch_check_roundtrip binkEmbeddedW (fun _ => none) []).1, ?_⟩
  exact (C2_patch_check_roundtrip binkEmbeddedW (fun _ => none) []).2 _ rfl

/-- C3 counterexample: a game directory whose binkw32.dll originally holds
bytes different from the embedded unpatched resource; after apply_patch the
backup binkw23.dll holds the embedded unpatched bytes, not the bytes the
target file originally had, refuting the claimed preservation. -/
theorem C3_counterexample :
    (fun p : GamePath => if p = ["binkw32.dll"] then some ([5] : Bytes) else none)
        (GamePath.join [] "binkw32.dll") = some [5] ∧
    apply_patch binkEmbeddedW
        (fun p : GamePath => if p = ["binkw32.dll"] then some ([5] : Bytes) else none)
        [] (GamePath.join [] "binkw23.dll") = some [0] ∧
    some ([0] : Bytes) ≠ some [5] := by
  refine ⟨rfl, rfl, by simp⟩

/-- C3 amended: a successful apply_patch overwrites binkw32.dll with the
embedded patched bytes and writes the fixed embedded unpatched bytes to the
sibling backup binkw23.dll, regardless of the content the target file
originally had, leaving every other path unchanged. -/
theorem C3_apply_patch_writes (e : BinkEmbedded) (fs : FS) (gp : GamePath) :
    apply_patch e fs gp (gp.join "binkw32.dll") = some e.BINK_PATCHED ∧
    apply_patch e fs gp (gp.join "binkw23.dll") = some e.BINK_UNPATCHED ∧
    ∀ q, q ≠ gp.join "binkw32.dll" → q ≠ gp.join "binkw23.dll" →
      apply_patch e fs gp q = fs q := by
  have hne : gp.join "binkw32.dll" ≠ gp.join "binkw23.dll" :=
    GamePath.join_ne gp (by decide)
  refine ⟨?_, ?_, ?_⟩
  · unfold apply_patch
    rw [FS.write_other _ _ _ _ hne, FS.write_self]
  · unfold apply_patch
    rw [FS.write_self]
  · intro q h32 h23
    unfold apply_patch
    rw [FS.write_other _ _ _ _ h23, FS.write_other _ _ _ _ h32]

/-- C3 witness: the amended behaviour at a concrete embedded resource model,
an empty filesystem, the empty game path and an unrelated path. -/
theorem C3_apply_patch_witness :
    apply_patch binkEmbeddedW (fun _ => none) []
        (GamePath.join [] "binkw32.dll") = some binkEmbeddedW.BINK_PATCHED ∧
    apply_patch binkEmbeddedW (fun _ => none) []
        (GamePath.join [] "binkw23.dll") = some binkEmbeddedW.BINK_UNPATCHED ∧
    apply_patch binkEmbeddedW (fun _ => none) [] ["other"] = none := by
  refine ⟨(C3_apply_patch_writes binkEmbeddedW (fun _ => none) []).1,
    (C3_apply_patch_writes binkEmbeddedW (fun _ => none) []).2.1,
    (C3_apply_patch_writes binkEmbeddedW (fun _ => none) []).2.2 ["other"]
      (by decide) (by decide)⟩

/-- Head characters decide the lexicographic comparison of cons cells. -/
theorem charsLe_cons_iff (a b : Char) (as bs : List Char) :
    charsLe (a :: as) (b :: bs) = true ↔
      a < b ∨ (a = b ∧ charsLe as bs = true) := by
  simp only [charsLe]
  rcases lt_trichotomy a b with h | h | h
  · simp [h]
  · subst h
    simp [lt_irrefl]
  · simp [h, lt_asymm h, h.ne']

/-- The lexicographic comparison is reflexive. -/
theorem charsLe_refl : ∀ cs : List Char, charsLe cs cs = true
  | [] => rfl
  | _ :: cs => (charsLe_cons_iff _ _ _ _).mpr (Or.inr ⟨rfl, charsLe_refl cs⟩)

/-- The lexicographic comparison is total. -/
theorem charsLe_total : ∀ as bs : List Char,
    charsLe as bs = true ∨ charsLe bs as = true
  | [], _ => Or.inl rfl
  | _ :: _, [] => Or.inr rfl
  | a :: as, b :: bs => by
    rcases lt_trichotomy a b with h | h | h
    · exact Or.inl ((charsLe_cons_iff _ _ _ _).mpr (Or.inl h))
    · subst h
      rcases charsLe_total as bs with h2 | h2
      · exact Or.inl ((charsLe_cons_iff _ _ _ _).mpr (Or.inr ⟨rfl, h2⟩))
      · exact Or.inr ((charsLe_cons_iff _ _ _ _).mpr (Or.inr ⟨rfl, h2⟩))
    · exact Or.inr ((charsLe_cons_iff _ _ _ _).mpr (Or.inl h))

/-- The lexicographic comparison is transitive. -/
theorem charsLe_trans : ∀ as bs cs : List Char,
    charsLe as bs = true → charsLe bs cs = true → charsLe as cs = true
  | [], _, _, _, _ => rfl
  | _ :: _, [], _, h1, _ => by simp [charsLe] at h1
  | _ :: _, _ :: _, [], _, h2 => by simp [charsLe] at h2
  | a :: as, b :: bs, c :: cs, h1, h2 => by
    rw [charsLe_cons_iff] at h1 h2 ⊢
    rcases h1 with h1 | ⟨rfl, h1⟩
    · rcases h2 with h2 | ⟨rfl, h2⟩
      · exact Or.inl (lt_trans h1 h2)
      · exact Or.inl h1
    · rcases h2 with h2 | ⟨rfl, h2⟩
      · exact Or.inl h2
      · exact Or.inr ⟨rfl, charsLe_trans as bs cs h1 h2⟩

/-- String comparison is reflexive. -/
theorem strLe_refl (s : String) : strLe s s = true := charsLe_refl s.data

/-- String comparison is total. -/
theorem strLe_total (a b : String) : strLe a b = true ∨ strLe b a = true :=
  charsLe_total a.data b.data

/-- String comparison is transitive. -/
theorem strLe_trans {a b c : String} (h1 : strLe a b = true)
    (h2 : strLe b c = true) : strLe a c = true :=
  charsLe_trans a.data b.data c.data h1 h2

/-- C4: the latest prerelease lookup keeps exactly the prerelease entries of
the fetched list and returns a maximal one under the string comparison of
published_at; on the two element scenario list of the spec it returns the
v1.1 beta entry. -/
theorem C4_latest_beta_spec :
    (∀ (l : List GitHubRelease) (r : GitHubRelease),
       latest_beta_release l = some r →
       r ∈ l ∧ r.prerelease = true ∧
       ∀ s ∈ l, s.prerelease = true →
         strLe s.published_at r.published_at = true) ∧
    latest_beta_release [relStable, relBeta] = some relBeta := by
  constructor
  · intro l r h
    simp only [latest_beta_release] at h
    obtain ⟨rest, hsort⟩ : ∃ rest,
        (l.filter (fun v => v.prerelease)).mergeSort
          (fun a b => strLe b.published_at a.published_at) = r :: rest := by
      cases hm : (l.filter (fun v => v.prerelease)).mergeSort
          (fun a b => strLe b.published_at a.published_at) with
      | nil => rw [hm] at h; cases h
      | cons x xs => rw [hm] at h; cases h; exact ⟨xs, rfl⟩
    have hmem : r ∈ l.filter (fun v => v.prerelease) := by
      have : r ∈ (l.filter (fun v => v.prerelease)).mergeSort
          (fun a b => strLe b.published_at a.published_at) := by
        rw [hsort]; exact List.mem_cons_self r rest
      exact List.mem_mergeSort.mp this
    obtain ⟨hrl, hrp⟩ := List.mem_filter.mp hmem
    refine ⟨hrl, hrp, ?_⟩
    intro s hs hsp
    have hsmem : s ∈ (l.filter (fun v => v.prerelease)).mergeSort
        (fun a b => strLe b.published_at a.published_at) :=
      List.mem_mergeSort.mpr (List.mem_filter.mpr ⟨hs, hsp⟩)
    have hpair := @List.sorted_mergeSort GitHubRelease
      (fun a b : GitHubRelease => strLe b.published_at a.published_at)
      (fun a b c hab hbc => strLe_trans hbc hab)
      (fun a b => by
        rcases strLe_total a.published_at b.published_at with h2 | h2 <;>
          simp [h2])
      (l.filter (fun v => v.prerelease))
    rw [hsort] at hpair hsmem
    rcases List.mem_cons.mp hsmem with rfl | hrest
    · exact strLe_refl _
    · exact (List.pairwise_cons.mp hpair).1 s hrest
  · have hf : [relStable, relBeta].filter (fun v => v.prerelease) = [relBeta] := rfl
    simp only [latest_beta_release, hf, List.mergeSort_singleton]
    rfl

/-- C4 witness: the returned entry of the scenario list is a prerelease
member maximal in published_at among the prereleases of the list. -/
theorem C4_latest_beta_witness :
    relBeta ∈ [relStable, relBeta] ∧ relBeta.prerelease = true ∧
    ∀ s ∈ [relStable, relBeta], s.prerelease = true →
      strLe s.published_at relBeta.published_at = true :=
  C4_latest_beta_spec.1 [relStable, relBeta] relBeta C4_latest_beta_spec.2

/-- C5: apply_plugin selects the asset whose name equals ASSET_NAME exactly;
when no asset of the release has that name the operation errs, writing
nothing, and when exactly one asset has that name the selection returns that
unique asset. -/
theorem C5_asset_selection (download : GitHubReleaseAsset → Except String Bytes)
    (fs : FS) (gp : GamePath) (release : GitHubRelease) :
    ((∀ a ∈ release.assets, a.name ≠ ASSET_NAME) →
       find_plugin_asset release = none ∧
       apply_plugin download fs gp release =
         Except.error "missing plugin asset file") ∧
    (∀ a, a ∈ release.assets → a.name = ASSET_NAME →
       (∀ b ∈ release.assets, b.name = ASSET_NAME → b = a) →
       find_plugin_asset release = some a) := by
  constructor
  · intro h
    have hf : find_plugin_asset release = none := by
      rw [find_plugin_asset, List.find?_eq_none]
      intro x hx
      simp [h x hx]
    exact ⟨hf, by simp [apply_plugin, hf]⟩
  · intro a ha hname huniq
    rw [find_plugin_asset]
    revert ha huniq
    induction release.assets with
    | nil => intro ha _; cases ha
    | cons x xs ih =>
      intro ha huniq
      by_cases hx : x.name = ASSET_NAME
      · have hxa : x = a := huniq x (List.mem_cons_self x xs) hx
        subst hxa
        exact List.find?_cons_of_pos _ (by simp [hx])
      · have ha2 : a ∈ xs := by
          rcases List.mem_cons.mp ha with rfl | h2
          · exact absurd hname hx
          · exact h2
        rw [List.find?_cons_of_neg _ (by simp [hx])]
        exact ih ha2 (fun b hb hbn => huniq b (List.mem_cons_of_mem x hb) hbn)

/-- C5 witness: on a release without the plugin asset the operation errs,
and on a release holding exactly the plugin asset the selection returns it. -/
theorem C5_asset_selection_witness :
    find_plugin_asset relStable = none ∧
    apply_plugin (fun _ => Except.ok []) (fun _ => none) [] relStable =
      Except.error "missing plugin asset file" ∧
    find_plugin_asset releaseW = some assetW := by
  have h1 := (C5_asset_selection (fun _ => Except.ok []) (fun _ => none) []
      relStable).1 (by intro a ha; simp [relStable] at ha)
  have h2 := (C5_asset_selection (fun _ => Except.ok []) (fun _ => none) []
      releaseW).2 assetW (by simp [releaseW]) rfl
    (by intro b hb hbn; simpa [releaseW] using hb)
  exact ⟨h1.1, h1.2, h2⟩

/-- C6: remove_patch writes the embedded unpatched bytes back to binkw32.dll
and deletes the backup binkw23.dll only when present; a missing backup is not
an error, the operation always succeeding with no backup file left and every
other path untouched. -/
theorem C6_remove_patch_spec (e : BinkEmbedded) (fs : FS) (gp : GamePath) :
    ∃ fs2, remove_patch e fs gp = Except.ok fs2 ∧
      fs2 (gp.join "binkw32.dll") = some e.BINK_UNPATCHED ∧
      fs2 (gp.join "binkw23.dll") = none ∧
      ∀ q, q ≠ gp.join "binkw32.dll" → q ≠ gp.join "binkw23.dll" →
        fs2 q = fs q := by
  have hne : gp.join "binkw32.dll" ≠ gp.join "binkw23.dll" :=
    GamePath.join_ne gp (by decide)
  simp only [remove_patch]
  by_cases hex : (FS.write fs (gp.join "binkw32.dll")
      e.BINK_UNPATCHED).pathExists (gp.join "binkw23.dll")
  · rw [if_pos hex]
    obtain ⟨b, hb⟩ := Option.isSome_iff_exists.mp hex
    simp only [FS.removeFile, hb]
    refine ⟨_, rfl, ?_, by simp, ?_⟩
    · rw [if_neg hne, FS.write_self]
    · intro q h32 h23
      rw [if_neg h23, FS.write_other _ _ _ _ h32]
  · rw [if_neg hex]
    refine ⟨_, rfl, FS.write_self _ _ _, ?_, ?_⟩
    · have := Option.not_isSome_iff_eq_none.mp hex
      exact this
    · intro q h32 _
      exact FS.write_other _ _ _ _ h32

/-- C6 witness: removing the patch on an empty filesystem, where the backup
is absent, still succeeds. -/
theorem C6_remove_patch_witness :
    ∃ fs2, remove_patch binkEmbeddedW (fun _ => none) [] = Except.ok fs2 ∧
      fs2 (GamePath.join [] "binkw32.dll") = some binkEmbeddedW.BINK_UNPATCHED ∧
      fs2 (GamePath.join [] "binkw23.dll") = none ∧
      ∀ q, q ≠ GamePath.join [] "binkw32.dll" →
        q ≠ GamePath.join [] "binkw23.dll" → fs2 q = (fun _ => none : FS) q :=
  C6_remove_patch_spec binkEmbeddedW (fun _ => none) []

/-- C7: remove_plugin deletes the file at ASI/pocket-relay-plugin.asi under
the game directory and returns ok exactly when the deletion succeeds; in this
revision the absence of that file is an error. -/
theorem C7_remove_plugin_spec (fs : FS) (gp : GamePath) :
    (∀ b, fs ((gp.join PLUGIN_DIR).join PLUGIN_NAME) = some b →
       ∃ fs2, remove_plugin fs gp = Except.ok fs2 ∧
         fs2 ((gp.join PLUGIN_DIR).join PLUGIN_NAME) = none ∧
         ∀ q, q ≠ (gp.join PLUGIN_DIR).join PLUGIN_NAME → fs2 q = fs q) ∧
    (fs ((gp.join PLUGIN_DIR).join PLUGIN_NAME) = none →
       remove_plugin fs gp = Except.error "No such file or directory") := by
  constructor
  · intro b hb
    simp only [remove_plugin, FS.removeFile, hb]
    refine ⟨_, rfl, by simp, fun q hq => by simp [hq]⟩
  · intro hb
    simp only [remove_plugin, FS.removeFile, hb]

/-- C7 witness: removal succeeds on a filesystem holding the plugin file and
errs on an empty filesystem. -/
theorem C7_remove_plugin_witness :
    (∃ fs2, remove_plugin
        (fun p => if p = [PLUGIN_DIR, PLUGIN_NAME] then some [7] else none)
        [] = Except.ok fs2 ∧
      fs2 ((GamePath.join [] PLUGIN_DIR).join PLUGIN_NAME) = none ∧
      ∀ q, q ≠ (GamePath.join [] PLUGIN_DIR).join PLUGIN_NAME →
        fs2 q = (fun p => if p = [PLUGIN_DIR, PLUGIN_NAME] then some [7]
          else none : FS) q) ∧
    remove_plugin (fun _ => none) [] =
      Except.error "No such file or directory" := by
  refine ⟨(C7_remove_plugin_spec
      (fun p => if p = [PLUGIN_DIR, PLUGIN_NAME] then some [7] else none)
      []).1 [7] rfl,
    (C7_remove_plugin_spec (fun _ => none) []).2 rfl⟩

/-- C8: writing a byte buffer then reading the same path yields exactly the
buffer, and in particular a successful apply_plugin leaves the downloaded
bytes readable at the plugin path. -/
theorem C8_write_read_roundtrip :
    (∀ (fs : FS) (p : GamePath) (b : Bytes), fs.write p b p = some b) ∧
    (∀ (download : GitHubReleaseAsset → Except String Bytes) (fs : FS)
       (gp : GamePath) (release : GitHubRelease) (asset : GitHubReleaseAsset)
       (b : Bytes) (fs2 : FS),
       find_plugin_asset release = some asset →
       download asset = Except.ok b →
       apply_plugin download fs gp release = Except.ok fs2 →
       fs2 ((gp.join PLUGIN_DIR).join PLUGIN_NAME) = some b) := by
  constructor
  · exact fun fs p b => FS.write_self fs p b
  · intro download fs gp release asset b fs2 hfind hdl happ
    simp only [apply_plugin, hfind, hdl] at happ
    cases happ
    exact FS.write_self _ _ _

/-- C8 witness: the round trip at a concrete buffer, and the plugin install
round trip at a concrete release, asset and download. -/
theorem C8_write_read_witness :
    FS.write (fun _ => none) ["x"] [1] ["x"] = some [1] ∧
    FS.write (fun _ => none) ((GamePath.join [] PLUGIN_DIR).join PLUGIN_NAME)
      [9] ((GamePath.join [] PLUGIN_DIR).join PLUGIN_NAME) = some [9] := by
  refine ⟨C8_write_read_roundtrip.1 (fun _ => none) ["x"] [1], ?_⟩
  exact C8_write_read_roundtrip.2 (fun _ => Except.ok [9]) (fun _ => none) []
    releaseW assetW [9] _ rfl rfl rfl

/-- C9: when the fetched release list holds no prerelease, the lookup returns
ok none; the absence of a prerelease is never reported as an error. -/
theorem C9_no_prerelease_ok_none (l : List GitHubRelease)
    (h : ∀ r ∈ l, r.prerelease = false) :
    get_latest_beta_plugin_release (Except.ok l) = Except.ok none := by
  have hf : l.filter (fun v => v.prerelease) = [] := by
    rw [List.filter_eq_nil_iff]
    intro a ha
    simp [h a ha]
  simp [get_latest_beta_plugin_release, latest_beta_release, hf]

/-- C9 witness: a fetched singleton list whose only entry is not a
prerelease yields ok none. -/
theorem C9_no_prerelease_witness :
    get_latest_beta_plugin_release (Except.ok [relStable]) = Except.ok none :=
  C9_no_prerelease_ok_none [relStable]
    (fun r hr => by rw [List.mem_singleton.mp hr]; rfl)

/-- C10: the patch and plugin reducers require an Active app state, reaching
the modelled panic, none, whenever the state is Initial; the plugin Add
message further requires Ready plugin details; under these preconditions the
panic branches are unreachable and each update yields a new app and task. -/
theorem C10_update_preconditions :
    (∀ (app : App) (s : AppStateInitial) (msg : PatchMessage),
       app.state = AppState.Initial s → app.update_patch msg = none) ∧
    (∀ (app : App) (s : AppStateInitial) (msg : PluginMessage),
       app.state = AppState.Initial s → app.update_plugin msg = none) ∧
    (∀ (app : App) (s : AppStateActive),
       app.state = AppState.Active s →
       (∀ d, app.plugin_details_state ≠ PluginDetailsState.Ready d) →
       app.update_plugin PluginMessage.Add = none) ∧
    (∀ (app : App) (s : AppStateActive) (msg : PatchMessage),
       app.state = AppState.Active s →
       (app.update_patch msg).isSome = true) ∧
    (∀ (app : App) (s : AppStateActive) (msg : PluginMessage)
       (d : PluginDetails),
       app.state = AppState.Active s →
       app.plugin_details_state = PluginDetailsState.Ready d →
       (app.update_plugin msg).isSome = true) := by
  refine ⟨?_, ?_, ?_, ?_, ?_⟩
  · intro app s msg h
    unfold App.update_patch
    rw [h]
  · intro app s msg h
    unfold App.update_plugin
    rw [h]
  · intro app s h hd
    unfold App.update_plugin
    rw [h]
    cases hp : app.plugin_details_state with
    | Loading => rfl
    | Error e => rfl
    | Ready d => exact absurd hp (hd d)
  · intro app s msg h
    unfold App.update_patch
    rw [h]
    cases msg with
    | Add => rfl
    | Remove => rfl
    | Added result => cases result <;> rfl
    | Removed result => cases result <;> rfl
  · intro app s msg d h hp
    unfold App.update_plugin
    rw [h]
    cases msg with
    | Add => rw [hp]; rfl
    | Remove => rfl
    | SelectType t => rw [hp]; rfl
    | Added result => cases result <;> rfl
    | Removed result => cases result <;> rfl

/-- C10 witness: the reducers at concrete apps in the Initial state, in the
Active state with loading details, and in the Active state with ready
details. -/
theorem C10_update_witness :
    appInitialW.update_patch PatchMessage.Add = none ∧
    appInitialW.update_plugin PluginMessage.Add = none ∧
    appActiveW.update_plugin PluginMessage.Add = none ∧
    (appActiveReadyW.update_patch PatchMessage.Add).isSome = true ∧
    (appActiveReadyW.update_plugin PluginMessage.Add).isSome = true := by
  refine ⟨C10_update_preconditions.1 appInitialW _ _ rfl,
    C10_update_preconditions.2.1 appInitialW _ _ rfl,
    C10_update_preconditions.2.2.1 appActiveW activeW rfl
      (fun d => by simp [appActiveW]),
    C10_update_preconditions.2.2.2.1 appActiveReadyW activeW _ rfl,
    C10_update_preconditions.2.2.2.2 appActiveReadyW activeW _ detailsW rfl rfl⟩

end PocketRelayInstaller
